import Mathlib

/-!
Verification of the oddsy market-data pipeline (Kalshi/Polymarket dashboard).

Shallow embedding conventions:
- Python numeric fields are modelled as exact rationals; a field that is
  Python `None` (or a pandas missing value treated as missing by the code)
  is modelled as `Option.none`.
- Python `round(x, 1)` uses round-half-to-even; we model it exactly on
  rationals (binary floating point artifacts are out of scope).
- HTTP endpoints are modelled as oracles: a function from the index of the
  request issued to the response (or an error, for the fetchers whose error
  propagation is under study).
-/

namespace Oddsy

/-- Python whitespace characters stripped by `str.strip()` (ASCII subset). -/
def isPySpace (c : Char) : Bool :=
  c = ' ' || c = '\t' || c = '\n' || c = '\r' || c = '\x0b' || c = '\x0c'

/-- Model of Python `str.strip()`. -/
def pyStrip (s : String) : String :=
  String.mk (((s.toList.dropWhile isPySpace).reverse.dropWhile isPySpace).reverse)

/-- Model of Python `str.lower()` (character-wise). -/
def pyLower (s : String) : String := String.mk (s.toList.map Char.toLower)

/-- Model of Python `str.startswith(pat)`. -/
def strStartsWith (s pat : String) : Bool :=
  s.toList.take pat.toList.length = pat.toList

/-- Model of Python `c in s` for a single character. -/
def strContainsChar (s : String) (c : Char) : Bool :=
  s.toList.any (fun x => x = c)

/-- Lexicographic comparison of character lists (Python string `<=`,
by code point). -/
def charListLe : List Char → List Char → Bool
  | [], _ => true
  | _ :: _, [] => false
  | a :: as, b :: bs => if a < b then true else if b < a then false else charListLe as bs

/-- Model of Python string `<=`. -/
def strLe (a b : String) : Bool := charListLe a.toList b.toList

/-- Round-half-to-even on rationals, as Python's builtin `round` does. -/
def roundHalfEven (q : ℚ) : ℤ :=
  let f : ℤ := ⌊q⌋
  let r : ℚ := q - (f : ℚ)
  if r < 1/2 then f
  else if 1/2 < r then f + 1
  else if f % 2 = 0 then f else f + 1

/-- Model of Python `round(q, 1)`. -/
def round1 (q : ℚ) : ℚ := ((roundHalfEven (q * 10) : ℤ) : ℚ) / 10

/-- Model of Python `int()` applied to a (rational-valued) float:
truncation toward zero. -/
def pyInt (q : ℚ) : ℤ := if 0 ≤ q then ⌊q⌋ else ⌈q⌉

/-- Python truthiness of an optional string (`None` and `""` are falsy). -/
def strTruthy : Option String → Bool
  | none => false
  | some s => s ≠ ""

/-- Model of Python `a or b` on optional strings (first truthy wins). -/
def pyOrStr (a b : Option String) : Option String :=
  if strTruthy a then a else b

/-! ## market_transform.compute_probability (src/oddsy_services/market_transform.py:24-39)

A row here carries the percent-scale price fields; `none` models a Python
`None` or pandas NaN value (the source guards every use with
`is not None and not np.isnan(...)`, treating both identically). -/

structure PctRow where
  last_traded_pct : Option ℚ
  yes_bid_pct : Option ℚ
  yes_ask_pct : Option ℚ
  deriving DecidableEq

/-- The trailing loop `for v in [bid, ask]: ... if v > 0: return v`.  -/
def loopFirstPositive : List (Option ℚ) → Option ℚ
  | [] => none
  | none :: rest => loopFirstPositive rest
  | some v :: rest => if 0 < v then some v else loopFirstPositive rest

/-- The bid/ask part of `compute_probability` (everything after the
last-traded check). -/
def computeProbBidAsk (bid ask : Option ℚ) : Option ℚ :=
  match bid, ask with
  | some b, some a =>
    if 0 < b ∨ 0 < a then some (round1 ((b + a) / 2))
    else loopFirstPositive [some b, some a]
  | b, a => loopFirstPositive [b, a]

/-- `compute_probability`: last traded price if strictly positive, else the
bid/ask fallback chain. -/
def compute_probability (row : PctRow) : Option ℚ :=
  match row.last_traded_pct with
  | some lt =>
    if 0 < lt then some lt
    else computeProbBidAsk row.yes_bid_pct row.yes_ask_pct
  | none => computeProbBidAsk row.yes_bid_pct row.yes_ask_pct

/-! ## market_transform.compute_implied_yes_prob_from_dollars (lines 41-71)

Dollar-scale price fields after the source's `to_float` coercion: `none`
models `None` or an unparseable value. -/

structure KalshiRawRow where
  market_type : Option String
  last_price_dollars : Option ℚ
  yes_bid_dollars : Option ℚ
  yes_ask_dollars : Option ℚ
  deriving DecidableEq

/-- The body after the market-type guard: last price if present (no
positivity check in the source), else the mean of the present dollar
bid/ask candidates. -/
def fromDollarsCore (row : KalshiRawRow) : Option ℚ :=
  match row.last_price_dollars with
  | some last => some (round1 (last * 100))
  | none =>
    match row.yes_bid_dollars, row.yes_ask_dollars with
    | some b, some a => some (round1 ((b + a) / 2 * 100))
    | some b, none => some (round1 (b * 100))
    | none, some a => some (round1 (a * 100))
    | none, none => none

/-- `compute_implied_yes_prob_from_dollars`: `None` for a truthy
market_type other than "binary" (case-insensitive), else the dollar chain. -/
def compute_implied_yes_prob_from_dollars (row : KalshiRawRow) : Option ℚ :=
  match row.market_type with
  | some mt =>
    if mt ≠ "" ∧ pyLower mt ≠ "binary" then none
    else fromDollarsCore row
  | none => fromDollarsCore row

/-! ## market_transform.extract_option_name_from_title (lines 5-22)

`SHORT_CODE_RE = ^[A-Z]{2,6}$` and the Sports Illustrated Swimsuit title
pattern `^Will (.+?) be on the cover of .*Sports Illustrated Swimsuit`
(re.IGNORECASE, re.match). We model the regex executable: `(.+?)` is lazy
(smallest capture such that the rest matches) and `.` matches any
character except a newline. -/

/-- Full-match of `^[A-Z]{2,6}$`. -/
def isShortCode (s : String) : Bool :=
  decide (2 ≤ s.length) && decide (s.length ≤ 6) &&
    s.toList.all (fun c => decide ('A' ≤ c) && decide (c ≤ 'Z'))

/-- Case-insensitive "starts with" over character lists. -/
def startsCI (pat l : List Char) : Bool :=
  (l.take pat.length).map Char.toLower = pat

/-- Does `l` contain (case-insensitively) the needle, with no newline
before the occurrence? This is `.*needle` with `.` excluding newlines. -/
def hasNeedleNoNl (needle : List Char) : List Char → Bool
  | [] => startsCI needle []
  | c :: rest =>
    if startsCI needle (c :: rest) then true
    else if c = '\n' then false
    else hasNeedleNoNl needle rest

/-- `" be on the cover of "` lower-cased, as a character list. -/
def beCoverPat : List Char := " be on the cover of ".toList

/-- `"sports illustrated swimsuit"` as a character list. -/
def siSwimsuitPat : List Char := "sports illustrated swimsuit".toList

/-- Lazy scan for the `(.+?)` capture: grow the capture one character at a
time (never across a newline) until the rest of the pattern matches. -/
def siTryAt (acc : List Char) : List Char → Option (List Char)
  | [] => none
  | c :: rest =>
    if c = '\n' then none
    else if startsCI beCoverPat rest && hasNeedleNoNl siSwimsuitPat (rest.drop beCoverPat.length) then
      some (acc ++ [c])
    else siTryAt (acc ++ [c]) rest

/-- `SI_SWIM_PATTERN.match(title)`, returning `group(1)` on success. -/
def siSwimCapture (title : String) : Option (List Char) :=
  let chars := title.toList
  if startsCI "will ".toList chars then siTryAt [] (chars.drop 5)
  else none

/-- The row fields `extract_option_name_from_title` reads; `none` models a
missing field (the source coerces it to `""` via `or ""`). -/
structure TitleRow where
  title : Option String
  yes_sub_title : Option String
  deriving DecidableEq

/-- `extract_option_name_from_title`: only when the stripped outcome hint
is a 2-6 char all-caps code, capture the name from the SI-swim title. -/
def extract_option_name_from_title (row : TitleRow) : Option String :=
  let title := pyStrip (row.title.getD "")
  let yes_sub := pyStrip (row.yes_sub_title.getD "")
  if yes_sub ≠ "" ∧ isShortCode yes_sub = true then
    (siSwimCapture title).map (fun g => pyStrip (String.mk g))
  else none

/-! ## app.outcome_label (src/app.py:276-316)

`none` models a missing field or a non-string value (the source guards
every string use with `isinstance(..., str)`); `ticker` is modelled
post-`str()`, with `""` for an absent key. -/

structure LabelRow where
  option_name_from_title : Option String
  yes_sub_title : Option String
  ticker : String
  deriving DecidableEq

/-- `ticker.split("-")[-1]`: the suffix after the last hyphen. -/
def lastHyphenSuffix (s : String) : String :=
  String.mk ((s.toList.reverse.takeWhile (fun c => c ≠ '-')).reverse)

/-- `label.lstrip(":")`. -/
def lstripColons (s : String) : String :=
  String.mk (s.toList.dropWhile (fun c => c = ':'))

/-- The final fallback of `outcome_label`: `"(unknown)"` for an empty label. -/
def unknownFallback (label : String) : String :=
  if label = "" then "(unknown)" else label

/-- Steps 3 and the final fallback of `outcome_label`: clean a leading
`::` marker, then substitute `"(unknown)"` for an empty label. -/
def finishLabel (label : String) : String :=
  unknownFallback (if strStartsWith label "::" then pyStrip (lstripColons label) else label)

/-- Steps 1-2 of `outcome_label`: the trimmed `yes_sub_title`, falling back
to the ticker suffix when empty. -/
def rawLabel (row : LabelRow) : String :=
  let label := match row.yes_sub_title with
               | some raw => pyStrip raw
               | none => ""
  if label = "" then
    let ticker := pyStrip row.ticker
    if strContainsChar ticker '-' then pyStrip (lastHyphenSuffix ticker) else ticker
  else label

/-- `outcome_label`: previously extracted option name first, else the
`yes_sub_title`/ticker chain with `::` cleaning and `"(unknown)"` fallback. -/
def outcome_label (row : LabelRow) : String :=
  match row.option_name_from_title with
  | some ft => if pyStrip ft ≠ "" then pyStrip ft else finishLabel (rawLabel row)
  | none => finishLabel (rawLabel row)

/-! ## market_transform._best_prices_from_book (lines 109-127)

A book level is modelled post-`float()`: `none` is a level whose price is
`None`/unparseable, so that `float(...)` raises there. The source's
`try/except` keeps whatever was assigned before the failure. -/

structure Book where
  bids : List (Option ℚ)
  asks : List (Option ℚ)
  deriving DecidableEq

/-- `_best_prices_from_book`: best level-0 bid/ask; an exception while
converting leaves the earlier assignments in place. -/
def best_prices_from_book (book : Book) : Option ℚ × Option ℚ :=
  match book.bids with
  | some p :: _ =>
    match book.asks with
    | some q :: _ => (some p, some q)
    | _ => (some p, none)
  | none :: _ => (none, none)
  | [] =>
    match book.asks with
    | some q :: _ => (none, some q)
    | _ => (none, none)

/-! ## market_transform.build_polymarket_display_df (lines 129-247)

A Gamma market is modelled with its list-ish fields already parsed (JSON
parsing is an environmental concern): outcome price entries are `none`
when absent or unparseable by `float`. `books` is the
`books_by_token` dict. -/

structure GammaMarket where
  question : Option String
  title : Option String
  slug : Option String
  category : Option String
  endDateIso : Option String
  endDate : Option String
  closedTime : Option String
  conditionId : Option String
  volume24hrClob : Option ℚ
  volume24hr : Option ℚ
  closed : Bool
  outcomes : List String
  outcomePrices : List (Option ℚ)
  clobTokenIds : List String
  deriving DecidableEq

structure PMRow where
  event_ticker : String
  title : String
  ticker : String
  category : Option String
  market_type : String
  status : String
  close_time : Option String
  yes_bid_pct : Option ℚ
  yes_ask_pct : Option ℚ
  last_traded_pct : Option ℚ
  implied_yes_prob : Option ℚ
  volume_24h : ℚ
  yes_sub_title : String
  platform : String
  deriving DecidableEq

/-- Effective outcome price list: discarded wholesale when its length
mismatches the outcome list (`[None] * len(outcomes)`). -/
def effOutcomePrices (m : GammaMarket) : List (Option ℚ) :=
  if m.outcomePrices.length ≠ m.outcomes.length
  then List.replicate m.outcomes.length none
  else m.outcomePrices

/-- The best bid/ask the builder resolves for outcome `i` from the
per-outcome book source (`(none, none)` when the token is unknown). -/
def bookBestAt (books : String → Option Book) (m : GammaMarket) (i : ℕ) :
    Option ℚ × Option ℚ :=
  match m.clobTokenIds.get? i with
  | some t =>
    if t ≠ "" then
      match books t with
      | some b => best_prices_from_book b
      | none => (none, none)
    else (none, none)
  | none => (none, none)

/-- The midpoint-ish estimate for outcome `i`: book bid/ask take priority;
only when both are absent is the market-level outcome price consulted. -/
def midAt (books : String → Option Book) (m : GammaMarket) (i : ℕ) : Option ℚ :=
  match bookBestAt books m i with
  | (some b, some a) => some ((b + a) / 2)
  | (some b, none) => some b
  | (none, some a) => some a
  | (none, none) => (effOutcomePrices m).getD i none

/-- The midpoint derivable from book prices alone (`none` when the book
yields neither side). -/
def bookOnlyMid : Option ℚ × Option ℚ → Option ℚ
  | (some b, some a) => some ((b + a) / 2)
  | (some b, none) => some b
  | (none, some a) => some a
  | (none, none) => none

/-- Python `str(x)` where `x` may be `None`. -/
def strOfOpt : Option String → String
  | some s => s
  | none => "None"

/-- One exploded DisplayRow-shaped record for outcome index `i`. -/
def pmRowAt (books : String → Option Book) (m : GammaMarket) (i : ℕ) : PMRow :=
  let question := (pyOrStr (pyOrStr m.question m.title) m.slug).getD "Polymarket market"
  let token_id : Option String := m.clobTokenIds.get? i
  let outcome := m.outcomes.getD i ""
  let best := bookBestAt books m i
  let mid := midAt books m i
  { event_ticker := strOfOpt (pyOrStr (pyOrStr m.slug m.conditionId) (some question))
    title := question
    ticker := match token_id with
              | some t => if t ≠ "" then t else strOfOpt m.conditionId ++ ":" ++ outcome
              | none => strOfOpt m.conditionId ++ ":" ++ outcome
    category := m.category
    market_type := if 2 < m.outcomes.length then "categorical" else "binary"
    status := if m.closed then "closed" else "open"
    close_time := pyOrStr (pyOrStr m.endDateIso m.endDate) m.closedTime
    yes_bid_pct := best.1.map (fun b => round1 (b * 100))
    yes_ask_pct := best.2.map (fun a => round1 (a * 100))
    last_traded_pct := none
    implied_yes_prob := mid.map (fun x => round1 (x * 100))
    volume_24h := (match m.volume24hrClob with
                   | some v => some v
                   | none => m.volume24hr).getD 0
    yes_sub_title := outcome
    platform := "Polymarket" }

/-- `build_polymarket_display_df`: explode each Gamma market into one row
per outcome. -/
def build_polymarket_display_df (gamma : List GammaMarket)
    (books : String → Option Book) : List PMRow :=
  gamma.flatMap (fun m => (List.range m.outcomes.length).map (pmRowAt books m))

/-! ## kalshi_client.fetch_kalshi_markets (src/oddsy_services/kalshi_client.py:74-106)

The endpoint is an oracle from the index of the request issued (the
cursor threading is opaque server state) to `Except`: `.error` models an
HTTP/transport failure raised by `kalshi_get` via `raise_for_status`.
Items are abstracted to natural numbers. The returned pair is
(result-or-propagated-exception, number of page requests issued). -/

structure KalshiPage where
  markets : List ℕ
  cursor : Option String
  deriving DecidableEq

/-- Python truthiness of the response cursor (`None` and `""` stop). -/
def cursorTruthy : Option String → Bool
  | none => false
  | some s => s ≠ ""

/-- The `while True` loop of `fetch_kalshi_markets`; `remaining` is
`max_pages - pages_fetched` (the source increments then breaks before the
request once the cap is hit). -/
def fetchKalshiGo (oracle : ℕ → Except String KalshiPage) (req : ℕ)
    (acc : List ℕ) : ℕ → Except String (List ℕ) × ℕ
  | 0 => (.ok acc, req)
  | r + 1 =>
    match oracle req with
    | .error e => (.error e, req + 1)
    | .ok page =>
      if page.markets.isEmpty then (.ok acc, req + 1)
      else if cursorTruthy page.cursor then
        fetchKalshiGo oracle (req + 1) (acc ++ page.markets) r
      else (.ok (acc ++ page.markets), req + 1)

def fetch_kalshi_markets (oracle : ℕ → Except String KalshiPage)
    (maxPages : ℕ) : Except String (List ℕ) × ℕ :=
  fetchKalshiGo oracle 0 [] maxPages

/-! ## polymarket_client.fetch_gamma_markets (src/oddsy_services/polymarket_client.py:22-49)

Offset pagination: `for _ in range(max_pages)`; a request error raised by
`_get` propagates. The oracle is indexed by the page number. -/

def fetchGammaGo (oracle : ℕ → Except String (List ℕ)) (page : ℕ)
    (acc : List ℕ) : ℕ → Except String (List ℕ) × ℕ
  | 0 => (.ok acc, page)
  | r + 1 =>
    match oracle page with
    | .error e => (.error e, page + 1)
    | .ok rows =>
      if rows.isEmpty then (.ok acc, page + 1)
      else fetchGammaGo oracle (page + 1) (acc ++ rows) r

def fetch_gamma_markets (oracle : ℕ → Except String (List ℕ))
    (maxPages : ℕ) : Except String (List ℕ) × ℕ :=
  fetchGammaGo oracle 0 [] maxPages

/-! ## polymarket_client.fetch_polymarket_trades_last_7d (lines 150-191)

Trade records carry an integer timestamp plus an abstract payload. The
oracle returns the batch for the n-th page request; an empty batch (also
standing for a non-list body or a batch without a timestamp column, both
of which stop pagination without appending rows) ends the loop. -/

structure PmTradeRec where
  timestamp : ℤ
  payload : ℕ
  deriving DecidableEq

/-- The page loop: filter each batch row-by-row to the window, then stop
once the batch's oldest timestamp precedes the cutoff. -/
def fetchPmTradesGo (oracle : ℕ → List PmTradeRec) (cutoff : ℤ) (page : ℕ)
    (acc : List PmTradeRec) : ℕ → List PmTradeRec
  | 0 => acc
  | r + 1 =>
    match oracle page with
    | [] => acc
    | b :: bs =>
      let batch := b :: bs
      let keep := batch.filter (fun t => cutoff ≤ t.timestamp)
      let oldest := (batch.map (fun t => t.timestamp)).foldl min b.timestamp
      if oldest < cutoff then acc ++ keep
      else fetchPmTradesGo oracle cutoff (page + 1) (acc ++ keep) r

def fetch_polymarket_trades_last_7d (oracle : ℕ → List PmTradeRec)
    (cutoff : ℤ) (maxPages : ℕ) : List PmTradeRec :=
  fetchPmTradesGo oracle cutoff 0 [] maxPages

/-! ## app.py event grouping (src/app.py:144-192)

The unified display frame row. `none` models a missing value (pandas
NaN / Python None); `ticker` is kept as a plain string since both
builders always populate it. -/

structure DisplayRow where
  title : Option String
  category : Option String
  status : Option String
  close_time : Option String
  ticker : String
  event_ticker : Option String
  implied_yes_prob : Option ℚ
  volume_24h : Option ℚ
  open_interest : Option ℚ
  platform : Option String
  deriving DecidableEq

/-- Insertion into a ≤-sorted string list. -/
def insertStr (s : String) : List String → List String
  | [] => [s]
  | t :: ts => if strLe s t then s :: t :: ts else t :: insertStr s ts

/-- Ascending sort of the group keys (pandas `groupby` sorts keys). -/
def sortStrs : List String → List String
  | [] => []
  | s :: ss => insertStr s (sortStrs ss)

/-- The rows actually grouped: when the `event_ticker` column is absent,
`df_display["event_ticker"] = df_display.get("ticker")` keys every row by
its own ticker; otherwise rows are used as-is. -/
def effRows (hasCol : Bool) (rows : List DisplayRow) : List DisplayRow :=
  if hasCol then rows
  else rows.map (fun r => { r with event_ticker := some r.ticker })

/-- The distinct non-missing keys, sorted (pandas `groupby` drops NaN
keys and sorts the rest). -/
def groupKeys (rows : List DisplayRow) : List String :=
  sortStrs (rows.filterMap (fun r => r.event_ticker)).dedup

/-- `df_display.groupby("event_ticker")`: one group per present key, in
key order, each holding the rows carrying that key. -/
def groupEvents (hasCol : Bool) (rows : List DisplayRow) :
    List (String × List DisplayRow) :=
  let rows := effRows hasCol rows
  (groupKeys rows).map
    (fun k => (k, rows.filter (fun r => decide (r.event_ticker = some k))))

/-- The descending-probability comparison used to sort a group's rows:
missing probabilities sort last (pandas `sort_values(..., ascending=False)`
keeps NaN at the end). -/
def probDescLe (a b : DisplayRow) : Bool :=
  match a.implied_yes_prob, b.implied_yes_prob with
  | some x, some y => decide (y ≤ x)
  | some _, none => true
  | none, some _ => false
  | none, none => true

def insertRowDesc (r : DisplayRow) : List DisplayRow → List DisplayRow
  | [] => [r]
  | x :: xs => if probDescLe r x then r :: x :: xs else x :: insertRowDesc r xs

/-- `group.sort_values("implied_yes_prob", ascending=False)` (a sort by
the key; the source's quicksort is modelled by an insertion sort, which
agrees with it up to the order of equal keys). -/
def sortGroup : List DisplayRow → List DisplayRow
  | [] => []
  | r :: rs => insertRowDesc r (sortGroup rs)

/-- `first.get("title") or str(event_id)`: the top row's title unless it
is missing or empty (Python falsiness), in which case the group key. -/
def eventTitle (t : Option String) (eventId : String) : String :=
  match t with
  | some s => if s = "" then eventId else s
  | none => eventId

structure EventCard where
  event_ticker : String
  title : String
  category : Option String
  status : Option String
  volume_24h : ℚ
  open_interest : Option ℚ
  close_time : Option String
  platform : String
  markets : List DisplayRow
  deriving DecidableEq

/-- The event dict built for one group (app.py:149-185). `hasV24` and
`hasOI` record whether the corresponding columns exist in the frame:
`fillna(0).sum()` when present, else `0` for volume and `None` for open
interest. `none` is returned for an empty group (never fed by `groupby`). -/
def buildEvent (hasV24 hasOI : Bool) (eventId : String)
    (group : List DisplayRow) : Option EventCard :=
  match sortGroup group with
  | [] => none
  | first :: rest =>
    some
      { event_ticker := eventId
        title := eventTitle first.title eventId
        category := first.category
        status := first.status
        volume_24h :=
          if hasV24 then
            (((first :: rest).map (fun r => r.volume_24h.getD 0)).sum)
          else 0
        open_interest :=
          if hasOI then
            some (((first :: rest).map (fun r => r.open_interest.getD 0)).sum)
          else none
        close_time := first.close_time
        platform := first.platform.getD "Unknown"
        markets := first :: rest }

/-! ## stats_service (src/oddsy_services/stats_service.py)

DataFrames are modelled as a row list plus presence flags for the
optional columns the source tests with `"c" in df.columns`; a missing
value inside a present column is `none` (`fillna(0)` maps it to 0). -/

structure ExchangeStats where
  name : String
  weekly_notional_volume : ℚ
  active_markets : ℤ
  weekly_transactions : ℤ
  open_interest : ℚ
  deriving DecidableEq

structure KTrade where
  price : Option ℚ
  count : Option ℚ
  price_dollars : Option ℚ
  deriving DecidableEq

structure KTradesDF where
  hasPrice : Bool
  hasCount : Bool
  hasPriceDollars : Bool
  rows : List KTrade
  deriving DecidableEq

structure KMarket where
  open_interest : Option ℚ
  volume_24h : Option ℚ
  volume : Option ℚ
  last_price_dollars : Option ℚ
  deriving DecidableEq

structure KMarketsDF where
  hasOI : Bool
  hasV24 : Bool
  hasVol : Bool
  hasLPD : Bool
  rows : List KMarket
  deriving DecidableEq

/-- Weekly notional from Kalshi trades: `price` is in cents
(`price/100 * count` summed); the `*_price_dollars` fallback column is
used otherwise; 0 when neither pairing exists. -/
def kalshiTradesNotional (t : KTradesDF) : ℚ :=
  if t.hasPrice && t.hasCount then
    (t.rows.map (fun r => r.price.getD 0 / 100 * r.count.getD 0)).sum
  else if t.hasPriceDollars && t.hasCount then
    (t.rows.map (fun r => r.price_dollars.getD 0 * r.count.getD 0)).sum
  else 0

/-- Weekly transactions from Kalshi trades: the summed `count` column,
else the row count. -/
def kalshiTradesTx (t : KTradesDF) : ℤ :=
  if t.hasCount then pyInt ((t.rows.map (fun r => r.count.getD 0)).sum)
  else t.rows.length

/-- The CASE-2 approximation of `compute_kalshi_stats` (no trades):
(weekly transactions, weekly notional) from the market volume columns. -/
def kalshiProxy (m : KMarketsDF) : ℤ × ℚ :=
  if m.hasV24 then
    let v24 := m.rows.map (fun r => r.volume_24h.getD 0)
    ( pyInt (v24.sum * 7)
    , if m.hasLPD then
        (m.rows.map (fun r => r.volume_24h.getD 0 * r.last_price_dollars.getD 0 * 7)).sum
      else v24.sum * 7 )
  else if m.hasVol then
    let vol := m.rows.map (fun r => r.volume.getD 0)
    ( pyInt vol.sum
    , if m.hasLPD then
        (m.rows.map (fun r => r.volume.getD 0 * r.last_price_dollars.getD 0)).sum
      else vol.sum )
  else (0, 0)

/-- `compute_kalshi_stats` (stats_service.py:31-130). -/
def compute_kalshi_stats (markets : Option KMarketsDF)
    (trades : Option KTradesDF) : ExchangeStats :=
  match markets with
  | none => ⟨"Kalshi", 0, 0, 0, 0⟩
  | some m =>
    if m.rows.isEmpty then ⟨"Kalshi", 0, 0, 0, 0⟩
    else
      let active : ℤ := m.rows.length
      let oi : ℚ := if m.hasOI then (m.rows.map (fun r => r.open_interest.getD 0)).sum else 0
      match trades with
      | some t =>
        if t.rows.isEmpty then
          let p := kalshiProxy m
          ⟨"Kalshi", p.2, active, p.1, oi⟩
        else ⟨"Kalshi", kalshiTradesNotional t, active, kalshiTradesTx t, oi⟩
      | none =>
        let p := kalshiProxy m
        ⟨"Kalshi", p.2, active, p.1, oi⟩

structure PMTrade where
  price : Option ℚ
  size : Option ℚ
  deriving DecidableEq

structure PMTradesDF where
  hasPrice : Bool
  hasSize : Bool
  rows : List PMTrade
  deriving DecidableEq

structure GammaStatsRow where
  v24clob : Option ℚ
  v24 : Option ℚ
  deriving DecidableEq

structure GammaStatsDF where
  hasV24Clob : Bool
  hasV24 : Bool
  rows : List GammaStatsRow
  deriving DecidableEq

structure OIRow where
  market : Option String
  value : Option ℚ
  deriving DecidableEq

structure OIDF where
  hasMarket : Bool
  hasValue : Bool
  rows : List OIRow
  deriving DecidableEq

/-- Polymarket open interest: the GLOBAL aggregate row's value when one
exists, else the summed `value` column. -/
def pmOpenInterest (oi : Option OIDF) : ℚ :=
  match oi with
  | none => 0
  | some d =>
    if d.rows.isEmpty then 0
    else if d.hasMarket && d.hasValue then
      match d.rows.filter (fun r => decide (r.market = some "GLOBAL")) with
      | g :: _ => g.value.getD 0
      | [] => (d.rows.map (fun r => r.value.getD 0)).sum
    else 0

/-- Maximum of a list of rationals (pandas `max` over a nonempty group). -/
def listMax0 : List ℚ → ℚ
  | [] => 0
  | x :: xs => xs.foldl max x

/-- Polymarket proxy notional: 24h volume times 7 from Gamma columns, or
from the display frame via a per-event max (the display repeats a
market's volume on every outcome row). -/
def pmProxyNotional (gamma : Option GammaStatsDF) (display : Option (List PMRow)) : ℚ :=
  match gamma with
  | some g =>
    if !g.rows.isEmpty then
      if g.hasV24Clob then (g.rows.map (fun r => r.v24clob.getD 0)).sum * 7
      else if g.hasV24 then (g.rows.map (fun r => r.v24.getD 0)).sum * 7
      else 0
    else match display with
         | some rows =>
           if !rows.isEmpty then
             (((rows.map (fun r => r.event_ticker)).dedup).map
               (fun k => listMax0 ((rows.filter (fun r => decide (r.event_ticker = k))).map
                 (fun r => r.volume_24h)))).sum * 7
           else 0
         | none => 0
  | none =>
    match display with
    | some rows =>
      if !rows.isEmpty then
        (((rows.map (fun r => r.event_ticker)).dedup).map
          (fun k => listMax0 ((rows.filter (fun r => decide (r.event_ticker = k))).map
            (fun r => r.volume_24h)))).sum * 7
      else 0
    | none => 0

/-- `compute_polymarket_stats` (stats_service.py:132-220). Active markets
count Gamma rows when present, else distinct display event keys. -/
def compute_polymarket_stats (gamma : Option GammaStatsDF)
    (display : Option (List PMRow)) (trades : Option PMTradesDF)
    (oi : Option OIDF) : ExchangeStats :=
  let gammaEmpty := match gamma with | none => true | some g => g.rows.isEmpty
  let displayEmpty := match display with | none => true | some rows => rows.isEmpty
  if gammaEmpty && displayEmpty then ⟨"Polymarket", 0, 0, 0, 0⟩
  else
    let active : ℤ :=
      if !gammaEmpty then (gamma.map (fun g => g.rows.length)).getD 0
      else match display with
           | some rows => ((rows.map (fun r => r.event_ticker)).dedup).length
           | none => 0
    let oiv := pmOpenInterest oi
    match trades with
    | some t =>
      if !t.rows.isEmpty then
        ⟨"Polymarket",
          (if t.hasPrice && t.hasSize then
            (t.rows.map (fun r => r.price.getD 0 * r.size.getD 0)).sum
           else 0),
          active, t.rows.length, oiv⟩
      else ⟨"Polymarket", pmProxyNotional gamma display, active, 0, oiv⟩
    | none => ⟨"Polymarket", pmProxyNotional gamma display, active, 0, oiv⟩

/-! ## Sample data used by witnesses and counterexamples -/

/-- Oracle whose second page request fails. -/
def c2orc : ℕ → Except String KalshiPage :=
  fun n => if n = 0 then .ok ⟨[7, 8], some "c"⟩ else .error "boom"

/-- Endpoint that always returns a full page with a continuation token. -/
def kAlways : ℕ → Except String KalshiPage := fun n => .ok ⟨[n], some "c"⟩

/-- Offset endpoint that always returns a non-empty page. -/
def gAlways : ℕ → Except String (List ℕ) := fun n => .ok [n]

/-- Trades endpoint whose first page straddles the cutoff 50. -/
def straddleOrc : ℕ → List PmTradeRec :=
  fun p => if p = 0 then [⟨100, 0⟩, ⟨90, 1⟩, ⟨40, 2⟩, ⟨30, 3⟩] else [⟨20, 4⟩]

/-- Row with a missing event key inside a frame that has the column. -/
def rNoEvent : DisplayRow :=
  ⟨none, none, none, none, "A", none, none, none, none, none⟩

/-- Row keyed by event "E". -/
def rEventE : DisplayRow :=
  ⟨none, none, none, none, "B", some "E", none, none, none, none⟩

/-- Row whose top-sorted title is the empty string. -/
def rEmptyTitle : DisplayRow :=
  ⟨some "", none, none, none, "D", some "EVT9", some 1, none, none, none⟩

def rowEVT1a : DisplayRow :=
  ⟨some "t10", none, none, none, "A", some "EVT1", some 10, some 5, none, none⟩

def rowEVT1b : DisplayRow :=
  ⟨some "t70", some "cat", some "open", some "ct", "B", some "EVT1", some 70,
    some 6, some 2, some "Kalshi"⟩

def rowEVT1c : DisplayRow :=
  ⟨some "t20", none, none, none, "C", some "EVT1", some 20, some 7, none, none⟩

/-- Gamma market with three outcomes and parallel prices/tokens. -/
def pmMkt3 : GammaMarket :=
  ⟨some "Q", none, some "slug", none, none, none, none, some "cid", some 9,
    none, false, ["A", "B", "C"],
    [some (1/5), some (3/10), some (1/2)], ["t1", "t2", "t3"]⟩

/-- Gamma market whose price list length mismatches its outcome list. -/
def pmMkt2 : GammaMarket :=
  ⟨some "Q", none, some "slug", none, none, none, none, some "cid", some 9,
    none, false, ["A", "B"], [some (1/5)], ["t1", "t2"]⟩

/-- Book source resolving only token "t1". -/
def pmBooks : String → Option Book :=
  fun t => if t = "t1" then some ⟨[some (2/5)], [some (3/5)]⟩ else none

/-- Kalshi markets frame with one market carrying open interest 3. -/
def kmSample : KMarketsDF := ⟨true, false, false, false, [⟨some 3, none, none, none⟩]⟩

/-- Kalshi trades frame with two trades (price in cents). -/
def ktSample : KTradesDF :=
  ⟨true, true, false, [⟨some 50, some 2, none⟩, ⟨some 25, some 4, none⟩]⟩

/-! ## Generic lemmas -/

theorem fetchKalshiGo_count (oracle : ℕ → Except String KalshiPage) :
    ∀ (remaining req : ℕ) (acc : List ℕ),
      (fetchKalshiGo oracle req acc remaining).2 ≤ req + remaining := by
  intro remaining
  induction remaining with
  | zero => intro req acc; simp [fetchKalshiGo]
  | succ r ih =>
    intro req acc
    simp only [fetchKalshiGo]
    cases oracle req with
    | error e => simp
    | ok page =>
      by_cases hm : page.markets.isEmpty = true
      · simp [hm]
      · by_cases hc : cursorTruthy page.cursor = true
        · have h := ih (req + 1) (acc ++ page.markets)
          simp [hm, hc]
          omega
        · simp [hm, hc]

theorem fetchGammaGo_count (oracle : ℕ → Except String (List ℕ)) :
    ∀ (remaining page : ℕ) (acc : List ℕ),
      (fetchGammaGo oracle page acc remaining).2 ≤ page + remaining := by
  intro remaining
  induction remaining with
  | zero => intro page acc; simp [fetchGammaGo]
  | succ r ih =>
    intro page acc
    simp only [fetchGammaGo]
    cases oracle page with
    | error e => simp
    | ok rows =>
      by_cases hm : rows.isEmpty = true
      · simp [hm]
      · have h := ih (page + 1) (acc ++ rows)
        simp [hm]
        omega

/-- A successful page that keeps the Kalshi loop going. -/
def kalshiOkFull (resp : Except String KalshiPage) : Prop :=
  ∃ p, resp = .ok p ∧ p.markets ≠ [] ∧ cursorTruthy p.cursor = true

/-- A successful page that keeps the Gamma loop going. -/
def gammaOkFull (resp : Except String (List ℕ)) : Prop :=
  ∃ rows, resp = .ok rows ∧ rows ≠ []

theorem fetchKalshiGo_error (oracle : ℕ → Except String KalshiPage) (e : String) :
    ∀ (k remaining req : ℕ) (acc : List ℕ), k < remaining →
      (∀ j, j < k → kalshiOkFull (oracle (req + j))) →
      oracle (req + k) = .error e →
      (fetchKalshiGo oracle req acc remaining).1 = .error e := by
  intro k
  induction k with
  | zero =>
    intro remaining req acc hk _ herr
    match remaining, hk with
    | r + 1, _ =>
      simp only [fetchKalshiGo]
      rw [show req + 0 = req from rfl] at herr
      rw [herr]
  | succ k ih =>
    intro remaining req acc hk hfull herr
    match remaining, hk with
    | r + 1, hk =>
      obtain ⟨p, hp, hne, hcur⟩ := hfull 0 (Nat.succ_pos k)
      rw [show req + 0 = req from rfl] at hp
      simp only [fetchKalshiGo, hp]
      rw [if_neg (by simpa [List.isEmpty_iff] using hne), if_pos hcur]
      apply ih r (req + 1) (acc ++ p.markets) (by omega)
      · intro j hj
        have := hfull (j + 1) (by omega)
        rwa [show req + (j + 1) = req + 1 + j by omega] at this
      · rwa [show req + 1 + k = req + (k + 1) by omega]

theorem fetchGammaGo_error (oracle : ℕ → Except String (List ℕ)) (e : String) :
    ∀ (k remaining page : ℕ) (acc : List ℕ), k < remaining →
      (∀ j, j < k → gammaOkFull (oracle (page + j))) →
      oracle (page + k) = .error e →
      (fetchGammaGo oracle page acc remaining).1 = .error e := by
  intro k
  induction k with
  | zero =>
    intro remaining page acc hk _ herr
    match remaining, hk with
    | r + 1, _ =>
      simp only [fetchGammaGo]
      rw [show page + 0 = page from rfl] at herr
      rw [herr]
  | succ k ih =>
    intro remaining page acc hk hfull herr
    match remaining, hk with
    | r + 1, hk =>
      obtain ⟨rows, hp, hne⟩ := hfull 0 (Nat.succ_pos k)
      rw [show page + 0 = page from rfl] at hp
      simp only [fetchGammaGo, hp]
      rw [if_neg (by simpa [List.isEmpty_iff] using hne)]
      apply ih r (page + 1) (acc ++ rows) (by omega)
      · intro j hj
        have := hfull (j + 1) (by omega)
        rwa [show page + (j + 1) = page + 1 + j by omega] at this
      · rwa [show page + 1 + k = page + (k + 1) by omega]

/-! ## Claim theorems -/

/-- C1 counterexample: in the dollars-based normalizer a last-traded price
of exactly 0 is used directly (there is no strictly-greater-than-zero
guard), instead of falling through to the 40/60 bid/ask midpoint 50. -/
theorem C1_counterexample :
    compute_implied_yes_prob_from_dollars ⟨none, some 0, some (2/5), some (3/5)⟩ = some 0 ∧
      (some (0 : ℚ) ≠ some (50 : ℚ)) := by
  constructor
  · simp only [compute_implied_yes_prob_from_dollars, fromDollarsCore]
    norm_num [round1, roundHalfEven]
  · decide

/-- C1 (amended): in `compute_probability` the last-traded price is used
only when strictly positive — at 0 or unknown, with bid and ask known and
one positive, the rounded mean is returned (40/60 gives 50.0) — but the
dollars-based variant `compute_implied_yes_prob_from_dollars` uses any
known last price directly, without the strictly-positive guard. -/
theorem C1_amended :
    (∀ (row : PctRow) (lt : ℚ), row.last_traded_pct = some lt → 0 < lt →
      compute_probability row = some lt) ∧
    (∀ (row : PctRow) (b a : ℚ),
      (row.last_traded_pct = none ∨ row.last_traded_pct = some 0) →
      row.yes_bid_pct = some b → row.yes_ask_pct = some a → (0 < b ∨ 0 < a) →
      compute_probability row = some (round1 ((b + a) / 2))) ∧
    (∀ (lt : ℚ) (bid ask : Option ℚ), lt ≤ 0 →
      compute_probability ⟨some lt, bid, ask⟩ = compute_probability ⟨none, bid, ask⟩) ∧
    (compute_probability ⟨some 0, some 40, some 60⟩ = some 50) ∧
    (∀ (row : KalshiRawRow) (l : ℚ), row.market_type = none →
      row.last_price_dollars = some l →
      compute_implied_yes_prob_from_dollars row = some (round1 (l * 100))) := by
  refine ⟨?_, ?_, ?_, ?_, ?_⟩
  · intro row lt hlt hpos
    simp [compute_probability, hlt, hpos]
  · intro row b a hlast hb ha hpos
    rcases hlast with h | h <;>
      simp [compute_probability, h, computeProbBidAsk, hb, ha, hpos]
  · intro lt bid ask hle
    simp [compute_probability, not_lt.mpr hle]
  · simp only [compute_probability, computeProbBidAsk]
    norm_num [round1, roundHalfEven]
  · intro row l hmt hl
    simp [compute_implied_yes_prob_from_dollars, fromDollarsCore, hmt, hl]

/-- C1 witness: the amended bid/ask-mean clause at the concrete row
(last = 0, bid = 40, ask = 60). -/
theorem C1_amended_witness :
    ((some (0 : ℚ) = none ∨ some (0 : ℚ) = some 0) ∧ ((0 : ℚ) < 40 ∨ (0 : ℚ) < 60)) ∧
      compute_probability ⟨some 0, some 40, some 60⟩ = some (round1 ((40 + 60) / 2)) :=
  ⟨⟨Or.inr rfl, Or.inl (by norm_num)⟩,
    C1_amended.2.1 ⟨some 0, some 40, some 60⟩ 40 60 (Or.inr rfl) rfl rfl
      (Or.inl (by norm_num))⟩

/-- C2 counterexample: when the second page request fails, the fetch
returns the propagated exception, not the two items accumulated from the
first page. -/
theorem C2_counterexample :
    fetch_kalshi_markets c2orc 5 = (.error "boom", 2) ∧
      (fetch_kalshi_markets c2orc 5).1 ≠ .ok [7, 8] := by
  constructor
  · rfl
  · intro h
    simp [fetch_kalshi_markets, fetchKalshiGo, c2orc, cursorTruthy] at h

/-- C2 (amended): a page request failure is not caught — both
`fetch_kalshi_markets` and `fetch_gamma_markets` propagate the exception
to the caller and discard the items accumulated from earlier pages. -/
theorem C2_amended :
    (∀ (oracle : ℕ → Except String KalshiPage) (maxPages k : ℕ) (e : String),
      k < maxPages → (∀ j, j < k → kalshiOkFull (oracle j)) →
      oracle k = .error e → (fetch_kalshi_markets oracle maxPages).1 = .error e) ∧
    (∀ (oracle : ℕ → Except String (List ℕ)) (maxPages k : ℕ) (e : String),
      k < maxPages → (∀ j, j < k → gammaOkFull (oracle j)) →
      oracle k = .error e → (fetch_gamma_markets oracle maxPages).1 = .error e) := by
  constructor
  · intro oracle maxPages k e hk hfull herr
    exact fetchKalshiGo_error oracle e k maxPages 0 [] hk
      (fun j hj => by simpa using hfull j hj) (by simpa using herr)
  · intro oracle maxPages k e hk hfull herr
    exact fetchGammaGo_error oracle e k maxPages 0 [] hk
      (fun j hj => by simpa using hfull j hj) (by simpa using herr)

/-- C2 witness: the amended propagation claim at the concrete oracle whose
second request fails. -/
theorem C2_amended_witness :
    (1 < 5 ∧ c2orc 1 = .error "boom") ∧
      (fetch_kalshi_markets c2orc 5).1 = .error "boom" :=
  ⟨⟨by omega, rfl⟩,
    C2_amended.1 c2orc 5 1 "boom" (by omega)
      (fun j hj => by
        have hj0 : j = 0 := by omega
        subst hj0
        exact ⟨⟨[7, 8], some "c"⟩, rfl, by simp, rfl⟩)
      rfl⟩

/-- C5 (confirmed): every paginated fetch issues at most `max_pages` page
requests, and with `max_pages = 3` against an endpoint that always returns
a full page with a continuation, both fetchers stop after exactly 3
requests and return the union of the 3 pages' items. -/
theorem C5_pagination_ceiling :
    (∀ (oracle : ℕ → Except String KalshiPage) (maxPages : ℕ),
      (fetch_kalshi_markets oracle maxPages).2 ≤ maxPages) ∧
    (∀ (oracle : ℕ → Except String (List ℕ)) (maxPages : ℕ),
      (fetch_gamma_markets oracle maxPages).2 ≤ maxPages) ∧
    fetch_kalshi_markets kAlways 3 = (.ok [0, 1, 2], 3) ∧
    fetch_gamma_markets gAlways 3 = (.ok [0, 1, 2], 3) := by
  refine ⟨?_, ?_, rfl, rfl⟩
  · intro oracle maxPages
    simpa using fetchKalshiGo_count oracle maxPages 0 []
  · intro oracle maxPages
    simpa using fetchGammaGo_count oracle maxPages 0 []

theorem fetchPmTradesGo_inv (oracle : ℕ → List PmTradeRec) (cutoff : ℤ) :
    ∀ (remaining page : ℕ) (acc : List PmTradeRec),
      (∀ t ∈ acc, cutoff ≤ t.timestamp) →
      ∀ t ∈ fetchPmTradesGo oracle cutoff page acc remaining,
        cutoff ≤ t.timestamp := by
  intro remaining
  induction remaining with
  | zero => intro page acc hacc; simpa [fetchPmTradesGo] using hacc
  | succ r ih =>
    intro page acc hacc t
    simp only [fetchPmTradesGo]
    cases oracle page with
    | nil => exact fun ht => hacc t ht
    | cons b bs =>
      have hkeep : ∀ u ∈ acc ++ (b :: bs).filter (fun u => decide (cutoff ≤ u.timestamp)),
          cutoff ≤ u.timestamp := by
        intro u hu
        rcases List.mem_append.mp hu with h | h
        · exact hacc u h
        · exact of_decide_eq_true (List.mem_filter.mp h).2
      by_cases hold :
          ((b :: bs).map (fun u => u.timestamp)).foldl min b.timestamp < cutoff
      · simp only [hold, if_pos]
        exact fun ht => hkeep t ht
      · simp only [hold, if_neg, not_false_iff]
        exact fun ht => ih (page + 1) _ hkeep t ht

/-- C10 (confirmed): every trade row returned by the 7-day Polymarket
trades fetch has a timestamp at or after the cutoff; a page straddling
the cutoff is filtered row-by-row (in-window rows kept, out-of-window
rows dropped) before pagination stops. -/
theorem C10_window_filter :
    (∀ (oracle : ℕ → List PmTradeRec) (cutoff : ℤ) (maxPages : ℕ)
       (t : PmTradeRec), t ∈ fetch_polymarket_trades_last_7d oracle cutoff maxPages →
       cutoff ≤ t.timestamp) ∧
    fetch_polymarket_trades_last_7d straddleOrc 50 50 = [⟨100, 0⟩, ⟨90, 1⟩] := by
  constructor
  · intro oracle cutoff maxPages t ht
    exact fetchPmTradesGo_inv oracle cutoff maxPages 0 [] (by simp) t ht
  · decide

/-- C10 witness: the in-window trade of the straddling page is in the
result and satisfies the window bound. -/
theorem C10_window_filter_witness :
    (⟨100, 0⟩ : PmTradeRec) ∈ fetch_polymarket_trades_last_7d straddleOrc 50 50 ∧
      (50 : ℤ) ≤ (⟨100, 0⟩ : PmTradeRec).timestamp :=
  ⟨by decide,
    C10_window_filter.1 straddleOrc 50 50 ⟨100, 0⟩ (by decide)⟩

theorem getD_replicate_none :
    ∀ (n i : ℕ), (List.replicate n (none : Option ℚ)).getD i none = none := by
  intro n
  induction n with
  | zero => intro i; simp
  | succ m ih =>
    intro i
    cases i with
    | zero => simp [List.replicate]
    | succ j => simp only [List.replicate, List.getD_cons_succ]; exact ih j

/-- C4 counterexample: the Polymarket builder populates
`implied_yes_prob` on rows whose market type is "categorical" (three
outcomes), contradicting the claim that the field is computed only for
binary or unspecified market types. -/
theorem C4_counterexample :
    (build_polymarket_display_df [pmMkt3] (fun _ => none)).map
        (fun r => (r.market_type, r.implied_yes_prob)) =
      [("categorical", some 20), ("categorical", some 30), ("categorical", some 50)] := by
  have hrange : List.range pmMkt3.outcomes.length = [0, 1, 2] := by decide
  simp only [build_polymarket_display_df, List.flatMap_cons, List.flatMap_nil,
    List.append_nil, hrange, List.map_cons, List.map_nil]
  simp only [pmRowAt, midAt, bookBestAt, effOutcomePrices, pmMkt3]
  norm_num [round1, roundHalfEven]

/-- C4 (amended): the Kalshi dollars-based normalizer excludes any truthy
non-"binary" market type (case-insensitive) from `implied_yes_prob` and
computes it only for binary or unspecified types; the Polymarket builder,
however, fills the per-outcome `implied_yes_prob` regardless of the row's
market type, including "categorical". -/
theorem C4_amended :
    (∀ (row : KalshiRawRow) (mt : String), row.market_type = some mt →
      mt ≠ "" → pyLower mt ≠ "binary" →
      compute_implied_yes_prob_from_dollars row = none) ∧
    (∀ row : KalshiRawRow, row.market_type = none →
      compute_implied_yes_prob_from_dollars row = fromDollarsCore row) ∧
    (∀ (row : KalshiRawRow) (mt : String), row.market_type = some mt →
      pyLower mt = "binary" →
      compute_implied_yes_prob_from_dollars row = fromDollarsCore row) ∧
    (∀ (books : String → Option Book) (m : GammaMarket) (i : ℕ),
      2 < m.outcomes.length →
      (pmRowAt books m i).market_type = "categorical" ∧
      (pmRowAt books m i).implied_yes_prob =
        (midAt books m i).map (fun x => round1 (x * 100))) := by
  refine ⟨?_, ?_, ?_, ?_⟩
  · intro row mt hmt h1 h2
    simp [compute_implied_yes_prob_from_dollars, hmt, h1, h2]
  · intro row hmt
    simp [compute_implied_yes_prob_from_dollars, hmt]
  · intro row mt hmt h
    simp [compute_implied_yes_prob_from_dollars, hmt, h]
  · intro books m i h
    exact ⟨by simp [pmRowAt, h], rfl⟩

/-- C4 witness: the exclusion clause at a concrete categorical Kalshi row. -/
theorem C4_amended_witness :
    ("categorical" ≠ "" ∧ pyLower "categorical" ≠ "binary") ∧
      compute_implied_yes_prob_from_dollars ⟨some "categorical", some 1, none, none⟩ = none :=
  ⟨⟨by decide, by decide⟩,
    C4_amended.1 ⟨some "categorical", some 1, none, none⟩ "categorical" rfl
      (by decide) (by decide)⟩

/-- C8 (confirmed): on a price/outcome length mismatch the whole price
list is discarded (replaced by all-unknown), so each outcome's implied
probability comes from the per-outcome book best bid/ask when resolvable
and is unknown otherwise; whenever the book yields a bid or an ask, it
takes priority over the market-level outcome-price estimate. -/
theorem C8_explode_fallback :
    (∀ m : GammaMarket, m.outcomePrices.length ≠ m.outcomes.length →
      effOutcomePrices m = List.replicate m.outcomes.length none) ∧
    (∀ (books : String → Option Book) (m : GammaMarket) (i : ℕ),
      m.outcomePrices.length ≠ m.outcomes.length →
      midAt books m i = bookOnlyMid (bookBestAt books m i)) ∧
    (∀ (books : String → Option Book) (m : GammaMarket) (i : ℕ),
      bookBestAt books m i ≠ (none, none) →
      midAt books m i = bookOnlyMid (bookBestAt books m i)) ∧
    (∀ (books : String → Option Book) (m : GammaMarket) (i : ℕ),
      (pmRowAt books m i).implied_yes_prob =
        (midAt books m i).map (fun x => round1 (x * 100))) := by
  refine ⟨?_, ?_, ?_, ?_⟩
  · intro m h
    simp [effOutcomePrices, h]
  · intro books m i h
    rcases hb : bookBestAt books m i with ⟨fst, snd⟩
    cases fst <;> cases snd <;> simp only [midAt, bookOnlyMid, hb]
    simp [effOutcomePrices, h, getD_replicate_none]
  · intro books m i h
    rcases hb : bookBestAt books m i with ⟨fst, snd⟩
    cases fst <;> cases snd <;> simp only [midAt, bookOnlyMid, hb]
    exact absurd hb h
  · intro books m i
    rfl

/-- C8 witness: with a mismatched price list, the book-resolved bid/ask of
outcome 0 take priority, fixing the midpoint from the book alone. -/
theorem C8_explode_fallback_witness :
    (pmMkt2.outcomePrices.length ≠ pmMkt2.outcomes.length ∧
      bookBestAt pmBooks pmMkt2 0 ≠ (none, none)) ∧
      midAt pmBooks pmMkt2 0 = bookOnlyMid (bookBestAt pmBooks pmMkt2 0) :=
  ⟨⟨by decide, by simp [bookBestAt, pmBooks, pmMkt2, best_prices_from_book]⟩,
    C8_explode_fallback.2.2.1 pmBooks pmMkt2 0
      (by simp [bookBestAt, pmBooks, pmMkt2, best_prices_from_book])⟩

theorem unknownFallback_ne (l : String) : unknownFallback l ≠ "" := by
  unfold unknownFallback
  split
  · decide
  · assumption

theorem finishLabel_ne (l : String) : finishLabel l ≠ "" :=
  unknownFallback_ne _

/-- C6 counterexample: with `yes_sub_title = "::"` (non-empty before
cleaning, empty after) and `ticker = "PRES-2024-DEM"`, the resolver
returns "(unknown)" — it does not fall through to the ticker suffix
"DEM" as the claimed priority chain requires. -/
theorem C6_counterexample :
    outcome_label ⟨none, some "::", "PRES-2024-DEM"⟩ = "(unknown)" ∧
      ("(unknown)" : String) ≠ "DEM" := by
  constructor
  · decide
  · decide

/-- C6 (amended): the resolver always returns a non-empty string; a
non-blank previously-extracted option name wins; otherwise a non-empty
trimmed `yes_sub_title` is committed to before colon-cleaning — if
stripping the leading colon marker empties it the result is "(unknown)",
and the ticker suffix is consulted only when the trimmed `yes_sub_title`
is empty or missing. The claimed concrete examples hold, and the upstream
option-name extraction fires only when the outcome hint is a 2-6
character all-caps code. -/
theorem C6_amended :
    (∀ row : LabelRow, outcome_label row ≠ "") ∧
    (∀ (row : LabelRow) (ft : String), row.option_name_from_title = some ft →
      pyStrip ft ≠ "" → outcome_label row = pyStrip ft) ∧
    (∀ row : LabelRow,
      (∀ ft, row.option_name_from_title = some ft → pyStrip ft = "") →
      outcome_label row = finishLabel (rawLabel row)) ∧
    (∀ (row : LabelRow) (raw : String), row.yes_sub_title = some raw →
      pyStrip raw ≠ "" → rawLabel row = pyStrip raw) ∧
    (∀ row : LabelRow,
      (∀ raw, row.yes_sub_title = some raw → pyStrip raw = "") →
      rawLabel row =
        (if strContainsChar (pyStrip row.ticker) '-' then
          pyStrip (lastHyphenSuffix (pyStrip row.ticker))
        else pyStrip row.ticker)) ∧
    (outcome_label ⟨none, some "::Democratic", "T"⟩ = "Democratic" ∧
      outcome_label ⟨none, some "", "PRES-2024-DEM"⟩ = "DEM" ∧
      outcome_label ⟨none, none, ""⟩ = "(unknown)") ∧
    (∀ (trow : TitleRow) (s : String), extract_option_name_from_title trow = some s →
      isShortCode (pyStrip (trow.yes_sub_title.getD "")) = true) := by
  refine ⟨?_, ?_, ?_, ?_, ?_, ⟨by decide, by decide, by decide⟩, ?_⟩
  · intro row
    rcases hm : row.option_name_from_title with _ | ft <;>
      simp only [outcome_label, hm]
    · exact finishLabel_ne _
    · split
      · assumption
      · exact finishLabel_ne _
  · intro row ft hft hne
    simp [outcome_label, hft, hne]
  · intro row hall
    rcases hm : row.option_name_from_title with _ | ft
    · simp [outcome_label, hm]
    · simp [outcome_label, hm, hall ft hm]
  · intro row raw hraw hne
    simp [rawLabel, hraw, hne]
  · intro row hall
    rcases hm : row.yes_sub_title with _ | raw
    · simp [rawLabel, hm]
    · simp [rawLabel, hm, hall raw hm]
  · intro trow s h
    by_cases hc : pyStrip (trow.yes_sub_title.getD "") ≠ "" ∧
        isShortCode (pyStrip (trow.yes_sub_title.getD "")) = true
    · exact hc.2
    · simp only [extract_option_name_from_title] at h
      rw [if_neg hc] at h
      cases h

/-- C6 witness: the option-name-first clause at a concrete row carrying a
padded extracted name. -/
theorem C6_amended_witness :
    pyStrip " Alice " ≠ "" ∧
      outcome_label ⟨some " Alice ", some "::", "T"⟩ = pyStrip " Alice " :=
  ⟨by decide, C6_amended.2.1 ⟨some " Alice ", some "::", "T"⟩ " Alice " rfl (by decide)⟩

theorem insertStr_perm (s : String) (l : List String) :
    List.Perm (insertStr s l) (s :: l) := by
  induction l with
  | nil => simp [insertStr]
  | cons t ts ih =>
    simp only [insertStr]
    split
    · exact List.Perm.refl _
    · exact (ih.cons t).trans (List.Perm.swap s t ts)

theorem sortStrs_perm (l : List String) : List.Perm (sortStrs l) l := by
  induction l with
  | nil => simp [sortStrs]
  | cons s ss ih => exact (insertStr_perm s (sortStrs ss)).trans (ih.cons s)

theorem groupKeys_nodup (rows : List DisplayRow) : (groupKeys rows).Nodup :=
  ((sortStrs_perm _).nodup_iff).mpr (List.nodup_dedup _)

theorem mem_groupKeys (rows : List DisplayRow) (k : String) :
    k ∈ groupKeys rows ↔ ∃ r ∈ rows, r.event_ticker = some k := by
  unfold groupKeys
  rw [(sortStrs_perm _).mem_iff, List.mem_dedup, List.mem_filterMap]

theorem insertRowDesc_perm (r : DisplayRow) (l : List DisplayRow) :
    List.Perm (insertRowDesc r l) (r :: l) := by
  induction l with
  | nil => simp [insertRowDesc]
  | cons x xs ih =>
    simp only [insertRowDesc]
    split
    · exact List.Perm.refl _
    · exact (ih.cons x).trans (List.Perm.swap r x xs)

theorem sortGroup_perm (l : List DisplayRow) : List.Perm (sortGroup l) l := by
  induction l with
  | nil => simp [sortGroup]
  | cons r rs ih => exact (insertRowDesc_perm r (sortGroup rs)).trans (ih.cons r)

theorem probDescLe_total (a b : DisplayRow) :
    probDescLe a b = true ∨ probDescLe b a = true := by
  unfold probDescLe
  rcases a.implied_yes_prob with _ | x <;> rcases b.implied_yes_prob with _ | y <;> simp
  exact le_total y x

theorem probDescLe_trans {a b c : DisplayRow} (h1 : probDescLe a b = true)
    (h2 : probDescLe b c = true) : probDescLe a c = true := by
  rcases ha : a.implied_yes_prob with _ | x <;>
    rcases hb : b.implied_yes_prob with _ | y <;>
    rcases hc : c.implied_yes_prob with _ | z <;>
    simp_all [probDescLe]
  linarith

theorem pairwise_insertRowDesc (r : DisplayRow) (l : List DisplayRow)
    (hl : l.Pairwise (fun a b => probDescLe a b = true)) :
    (insertRowDesc r l).Pairwise (fun a b => probDescLe a b = true) := by
  induction l with
  | nil => simp [insertRowDesc]
  | cons x xs ih =>
    rw [List.pairwise_cons] at hl
    obtain ⟨hx, hxs⟩ := hl
    simp only [insertRowDesc]
    split
    · rename_i hr
      rw [List.pairwise_cons]
      refine ⟨?_, List.pairwise_cons.mpr ⟨hx, hxs⟩⟩
      intro y hy
      rcases List.mem_cons.mp hy with rfl | hy2
      · exact hr
      · exact probDescLe_trans hr (hx y hy2)
    · rename_i hr
      have hxr : probDescLe x r = true := (probDescLe_total r x).resolve_left hr
      rw [List.pairwise_cons]
      refine ⟨?_, ih hxs⟩
      intro y hy
      rcases List.mem_cons.mp ((insertRowDesc_perm r xs).mem_iff.mp hy) with rfl | hy2
      · exact hxr
      · exact hx y hy2

theorem sortGroup_pairwise (l : List DisplayRow) :
    (sortGroup l).Pairwise (fun a b => probDescLe a b = true) := by
  induction l with
  | nil => simp [sortGroup]
  | cons r rs ih => exact pairwise_insertRowDesc r _ ih

/-- C3 counterexample: with the `event_ticker` column present, a row whose
own key is missing is dropped by the grouper — it belongs to zero
EventGroups rather than forming a singleton keyed by its ticker. -/
theorem C3_counterexample :
    groupEvents true [rNoEvent, rEventE] = [("E", [rEventE])] ∧
      (groupEvents true [rNoEvent, rEventE]).countP
        (fun p => decide (rNoEvent ∈ p.2)) = 0 := by
  constructor
  · decide
  · decide

/-- C3 (amended): group keys are distinct; every row whose `event_ticker`
is present belongs to exactly one EventGroup (the one keyed by it); a row
with a missing `event_ticker` value is dropped from grouping; and only
when the whole `event_ticker` column is absent is every row keyed by its
own ticker (so rows sharing a ticker share a group). -/
theorem C3_amended :
    ∀ (hasCol : Bool) (rows : List DisplayRow),
      (((groupEvents hasCol rows).map (fun p => p.1)).Nodup) ∧
      (∀ r ∈ effRows hasCol rows, ∀ k, r.event_ticker = some k →
        ((k, (effRows hasCol rows).filter
            (fun r2 => decide (r2.event_ticker = some k))) ∈ groupEvents hasCol rows ∧
          r ∈ (effRows hasCol rows).filter
            (fun r2 => decide (r2.event_ticker = some k)) ∧
          ∀ p ∈ groupEvents hasCol rows, r ∈ p.2 → p.1 = k)) ∧
      (∀ r ∈ effRows hasCol rows, r.event_ticker = none →
        ∀ p ∈ groupEvents hasCol rows, r ∉ p.2) ∧
      (hasCol = false → ∀ r ∈ effRows hasCol rows, r.event_ticker = some r.ticker) := by
  intro hasCol rows
  have hmap : (groupEvents hasCol rows).map (fun p => p.1) =
      groupKeys (effRows hasCol rows) := by
    have hcomp : ((fun p : String × List DisplayRow => p.1) ∘
        fun k => (k, (effRows hasCol rows).filter
          (fun r => decide (r.event_ticker = some k)))) = id := rfl
    simp [groupEvents, List.map_map, hcomp]
  refine ⟨?_, ?_, ?_, ?_⟩
  · rw [hmap]
    exact groupKeys_nodup _
  · intro r hr k hk
    refine ⟨?_, ?_, ?_⟩
    · exact List.mem_map.mpr ⟨k, (mem_groupKeys _ k).mpr ⟨r, hr, hk⟩, rfl⟩
    · exact List.mem_filter.mpr ⟨hr, by simp [hk]⟩
    · intro p hp hrp
      obtain ⟨k2, _, rfl⟩ := List.mem_map.mp hp
      have h2 := (List.mem_filter.mp hrp).2
      have : r.event_ticker = some k2 := of_decide_eq_true h2
      rw [hk] at this
      exact (Option.some.injEq _ _ ▸ this).symm
  · intro r hr hnone p hp hrp
    obtain ⟨k2, _, rfl⟩ := List.mem_map.mp hp
    have h2 := (List.mem_filter.mp hrp).2
    have : r.event_ticker = some k2 := of_decide_eq_true h2
    rw [hnone] at this
    cases this
  · intro h r hr
    subst h
    obtain ⟨r0, _, rfl⟩ := List.mem_map.mp hr
    rfl

/-- C3 witness: the membership clause at a concrete one-row frame keyed
by "E". -/
theorem C3_amended_witness :
    (rEventE ∈ effRows true [rEventE] ∧ rEventE.event_ticker = some "E") ∧
      ("E", (effRows true [rEventE]).filter
          (fun r2 => decide (r2.event_ticker = some "E"))) ∈ groupEvents true [rEventE] ∧
      rEventE ∈ (effRows true [rEventE]).filter
        (fun r2 => decide (r2.event_ticker = some "E")) := by
  have h := (C3_amended true [rEventE]).2.1 rEventE (by decide) "E" rfl
  exact ⟨⟨by decide, rfl⟩, h.1, h.2.1⟩

/-- C7 counterexample: a group whose top-sorted row has an empty title
receives the group key as its event title, not the top row's title. -/
theorem C7_counterexample :
    (buildEvent true true "EVT9" [rEmptyTitle]).map (fun c => c.title) = some "EVT9" ∧
      sortGroup [rEmptyTitle] = [rEmptyTitle] ∧
      rEmptyTitle.title = some "" ∧ ("EVT9" : String) ≠ "" := by
  refine ⟨?_, by decide, rfl, by decide⟩
  simp [buildEvent, sortGroup, insertRowDesc, eventTitle, rEmptyTitle]

/-- C7 (amended): a group's members are sorted by implied probability
descending with unknowns last (a permutation of the group); category,
status, close time and platform come from the top-sorted row; the title
comes from the top-sorted row unless it is missing or empty, in which
case the event key is used; `volume_24h` and `open_interest` are the
member sums with missing treated as 0 when the columns exist (else 0
resp. unknown). The 10/70/20 group sorts to [70, 20, 10] and sums its
members' volumes. -/
theorem C7_amended :
    (∀ (hasV24 hasOI : Bool) (eventId : String) (group : List DisplayRow)
        (first : DisplayRow) (rest : List DisplayRow),
      sortGroup group = first :: rest →
      buildEvent hasV24 hasOI eventId group =
        some { event_ticker := eventId
               title := eventTitle first.title eventId
               category := first.category
               status := first.status
               volume_24h :=
                 if hasV24 then
                   (((first :: rest).map (fun r => r.volume_24h.getD 0)).sum)
                 else 0
               open_interest :=
                 if hasOI then
                   some (((first :: rest).map (fun r => r.open_interest.getD 0)).sum)
                 else none
               close_time := first.close_time
               platform := first.platform.getD "Unknown"
               markets := first :: rest }) ∧
    (∀ group : List DisplayRow, List.Perm (sortGroup group) group) ∧
    (∀ group : List DisplayRow,
      (sortGroup group).Pairwise (fun a b => probDescLe a b = true)) ∧
    (buildEvent true true "EVT1" [rowEVT1a, rowEVT1b, rowEVT1c] =
      some { event_ticker := "EVT1"
             title := "t70"
             category := some "cat"
             status := some "open"
             volume_24h := 18
             open_interest := some 2
             close_time := some "ct"
             platform := "Kalshi"
             markets := [rowEVT1b, rowEVT1c, rowEVT1a] }) := by
  refine ⟨?_, sortGroup_perm, sortGroup_pairwise, ?_⟩
  · intro hasV24 hasOI eventId group first rest h
    simp only [buildEvent, h]
  · have hsort : sortGroup [rowEVT1a, rowEVT1b, rowEVT1c] =
        [rowEVT1b, rowEVT1c, rowEVT1a] := by decide
    simp only [buildEvent, hsort]
    norm_num [eventTitle, rowEVT1a, rowEVT1b, rowEVT1c]
    exact fun h => absurd h (by decide)

/-- C7 witness: the representative/aggregation clause at a concrete
singleton group. -/
theorem C7_amended_witness :
    sortGroup [rowEVT1a] = [rowEVT1a] ∧
      buildEvent true true "EVT1" [rowEVT1a] =
        some { event_ticker := "EVT1"
               title := eventTitle rowEVT1a.title "EVT1"
               category := rowEVT1a.category
               status := rowEVT1a.status
               volume_24h := (([rowEVT1a] : List DisplayRow).map
                 (fun r => r.volume_24h.getD 0)).sum
               open_interest := some ((([rowEVT1a] : List DisplayRow).map
                 (fun r => r.open_interest.getD 0)).sum)
               close_time := rowEVT1a.close_time
               platform := rowEVT1a.platform.getD "Unknown"
               markets := [rowEVT1a] } := by
  have h : sortGroup [rowEVT1a] = [rowEVT1a] := by decide
  exact ⟨h, C7_amended.1 true true "EVT1" [rowEVT1a] rowEVT1a [] h⟩

/-- C9 counterexample: with an empty markets frame, a present non-empty
trades frame is ignored — the stats are all zero rather than the trades'
Σ price×size (which is 1 dollar here). -/
theorem C9_counterexample :
    compute_kalshi_stats (some ⟨false, false, false, false, []⟩)
        (some ⟨true, true, false, [⟨some 50, some 2, none⟩]⟩) =
      ⟨"Kalshi", 0, 0, 0, 0⟩ ∧
      (([⟨some 50, some 2, none⟩] : List KTrade).map
        (fun r => r.price.getD 0 / 100 * r.count.getD 0)).sum = 1 ∧
      (0 : ℚ) ≠ 1 := by
  refine ⟨rfl, by norm_num, by norm_num⟩

/-- C9 (amended): provided the exchange's market frame is non-empty (an
empty one yields all-zero stats), a present non-empty trades frame
carrying price and size/count columns fixes the weekly notional to
Σ price×size over the trades (cents normalized to dollars for Kalshi),
regardless of any 24h-volume fields in the market frame; the ×7 proxy is
used only when trades are absent or empty. -/
theorem C9_amended :
    (∀ (m : KMarketsDF) (t : KTradesDF), m.rows ≠ [] → t.rows ≠ [] →
      t.hasPrice = true → t.hasCount = true →
      (compute_kalshi_stats (some m) (some t)).weekly_notional_volume =
        (t.rows.map (fun r => r.price.getD 0 / 100 * r.count.getD 0)).sum) ∧
    (∀ (g : GammaStatsDF) (display : Option (List PMRow)) (t : PMTradesDF)
        (oi : Option OIDF), g.rows ≠ [] → t.rows ≠ [] →
      t.hasPrice = true → t.hasSize = true →
      (compute_polymarket_stats (some g) display (some t) oi).weekly_notional_volume =
        (t.rows.map (fun r => r.price.getD 0 * r.size.getD 0)).sum) ∧
    (∀ m : KMarketsDF, m.rows ≠ [] →
      (compute_kalshi_stats (some m) none).weekly_notional_volume = (kalshiProxy m).2) ∧
    (∀ (m : KMarketsDF) (t : KTradesDF), m.rows ≠ [] → t.rows = [] →
      compute_kalshi_stats (some m) (some t) = compute_kalshi_stats (some m) none) := by
  refine ⟨?_, ?_, ?_, ?_⟩
  · intro m t hm ht hp hc
    simp [compute_kalshi_stats, kalshiTradesNotional, List.isEmpty_iff, hm, ht, hp, hc]
  · intro g display t oi hg ht hp hs
    simp [compute_polymarket_stats, List.isEmpty_iff, hg, ht, hp, hs]
  · intro m hm
    simp [compute_kalshi_stats, List.isEmpty_iff, hm]
  · intro m t hm ht
    simp [compute_kalshi_stats, List.isEmpty_iff, hm, ht]

/-- C9 witness: the trades-preferred clause at a concrete pair of frames
(two trades at 50¢×2 and 25¢×4). -/
theorem C9_amended_witness :
    (kmSample.rows ≠ [] ∧ ktSample.rows ≠ [] ∧
      ktSample.hasPrice = true ∧ ktSample.hasCount = true) ∧
      (compute_kalshi_stats (some kmSample) (some ktSample)).weekly_notional_volume =
        (ktSample.rows.map (fun r => r.price.getD 0 / 100 * r.count.getD 0)).sum :=
  ⟨⟨by decide, by decide, rfl, rfl⟩,
    C9_amended.1 kmSample ktSample (by decide) (by decide) rfl rfl⟩

end Oddsy
